import Mathlib

/-!
Verification of the CLI resolution logic of the Python Launcher
(src/cli.rs), shallowly embedded in Lean.

Paths are modelled as lists of components (an absolute path `/a/b` is
the list `["a", "b"]`; the filesystem root is `[]`).  The process
environment, the filesystem and the two external collaborators
(`crate::find_executable` / `crate::all_executables`) are bundled in a
`World` record that each embedded function takes explicitly.
-/

/-- The filesystem path model: a list of path components. -/
abbrev FsPath : Type := List String

instance {ε α : Type} [DecidableEq ε] [DecidableEq α] :
    DecidableEq (Except ε α) := fun x y =>
  match x, y with
  | Except.ok a, Except.ok b =>
    if h : a = b then Decidable.isTrue (by rw [h])
    else Decidable.isFalse (by intro hc; cases hc; exact h rfl)
  | Except.ok _, Except.error _ => Decidable.isFalse (by intro hc; cases hc)
  | Except.error _, Except.ok _ => Decidable.isFalse (by intro hc; cases hc)
  | Except.error e, Except.error f =>
    if h : e = f then Decidable.isTrue (by rw [h])
    else Decidable.isFalse (by intro hc; cases hc; exact h rfl)

/-- Splitting a character list at every occurrence of a separator
character; the primitive behind the path and version parsing. -/
def splitOnChar (sep : Char) : List Char → List (List Char)
  | [] => [[]]
  | c :: rest =>
    match splitOnChar sep rest with
    | [] => [[c]]
    | piece :: pieces =>
      if c = sep then [] :: piece :: pieces else (c :: piece) :: pieces

/-- Does the character list start with the given sequence (the model of
str::starts_with and of byte-slice matching)? -/
def startsWithChars : List Char → List Char → Bool
  | _, [] => true
  | [], _ :: _ => false
  | a :: as_, b :: bs => a = b && startsWithChars as_ bs

/-- Removal of leading and trailing whitespace (the model of
str::trim). -/
def trimChars (cs : List Char) : List Char :=
  ((cs.dropWhile Char.isWhitespace).reverse.dropWhile Char.isWhitespace).reverse

/-- The numeric value of a digit list, most significant first. -/
def natOfDigits (cs : List Char) : Nat :=
  cs.foldl (fun acc c => 10 * acc + (c.toNat - 48)) 0

/-- Parsing of a non-negative decimal integer (the model of the decimal
component parse): every character must be a digit and at least one must
be present, with no silent truncation. -/
def parseNatChars (cs : List Char) : Option Nat :=
  if cs.isEmpty then none
  else if cs.all Char.isDigit then some (natOfDigits cs)
  else none

/-- The decimal digit list of a number, most significant first
(rendering primitive for version strings and variable names). -/
def natChars : Nat → Nat → List Char
  | 0, _ => []
  | fuel + 1, n =>
    if n < 10 then [Char.ofNat (48 + n)]
    else natChars fuel (n / 10) ++ [Char.ofNat (48 + n % 10)]

/-- The decimal rendering of a number as a string. -/
def natString (n : Nat) : String :=
  String.mk (natChars (n + 1) n)

/-- Conversion of a raw string to a path, modelling `PathBuf::from`:
split on the separator and drop empty components. -/
def pathOfString (s : String) : FsPath :=
  ((splitOnChar '/' s.data).filter (fun c => ¬ c.isEmpty)).map String.mk

/-- Modelled from the spec: the `RequestedVersion` type lives in the
crate root (lib.rs), which is not under src/.  A tagged value, one of
`Any` (no constraint), `MajorOnly(major)`, `Exact(major, minor)`. -/
inductive RequestedVersion where
  | Any : RequestedVersion
  | MajorOnly : Nat → RequestedVersion
  | Exact : Nat → Nat → RequestedVersion
deriving DecidableEq, Repr

/-- Modelled from the spec: the `ExactVersion` struct lives in the crate
root (lib.rs), which is not under src/.  A concrete `(major, minor)`
pair identifying one discovered interpreter. -/
structure ExactVersion where
  major : Nat
  minor : Nat
deriving DecidableEq, Repr

/-- Modelled from the spec: the `crate::Error` type lives in the crate
root (lib.rs), which is not under src/.  The spec names the kinds
`IllegalArgument(flag)` (the code also records the launcher path),
`NoExecutableFound(requestedVersion)` and `BadVersionFormat`. -/
inductive Error where
  | IllegalArgument : FsPath → String → Error
  | NoExecutableFound : RequestedVersion → Error
  | BadVersionFormat : Error
deriving DecidableEq

/-- Modelled from the spec: `RequestedVersion::from_str` lives in the
crate root (lib.rs), which is not under src/.  Grammar per spec 4.1:
`MAJOR` to `MajorOnly(MAJOR)`, `MAJOR.MINOR` to `Exact(MAJOR, MINOR)`;
an extra dot-separated component, or a non-numeric component, is a
parse failure, never a truncation.  Per spec 4.2 step 5 (and as the
in-src shebang tests require, since `parse_python_shebang` feeds the
empty remainder of a bare interpreter path straight to this parser and
must obtain `Any`), the empty string parses to `Any`. -/
def RequestedVersion.from_chars (cs : List Char) : Except Error RequestedVersion :=
  if cs.isEmpty then
    Except.ok RequestedVersion.Any
  else
    match splitOnChar '.' cs with
    | [major] =>
      match parseNatChars major with
      | some m => Except.ok (RequestedVersion.MajorOnly m)
      | none => Except.error Error.BadVersionFormat
    | [major, minor] =>
      match parseNatChars major, parseNatChars minor with
      | some m, some n => Except.ok (RequestedVersion.Exact m n)
      | _, _ => Except.error Error.BadVersionFormat
    | _ => Except.error Error.BadVersionFormat

/-- The string-level entry point of the version grammar; see
RequestedVersion.from_chars. -/
def RequestedVersion.from_str (s : String) : Except Error RequestedVersion :=
  RequestedVersion.from_chars s.data

/-- Modelled from the spec: `RequestedVersion::env_var` lives in the
crate root (lib.rs), which is not under src/.  The override environment
variable is keyed by the shape of the request (spec section 6). -/
def RequestedVersion.env_var : RequestedVersion → Option String
  | RequestedVersion.Any => some "PY_PYTHON"
  | RequestedVersion.MajorOnly m => some ("PY_PYTHON" ++ natString m)
  | RequestedVersion.Exact m n =>
    some ("PY_PYTHON" ++ natString m ++ "." ++ natString n)

/-- Modelled from the spec: the display form of an `ExactVersion`
(lib.rs, not under src/) is the version string "major.minor". -/
def ExactVersion.to_string (v : ExactVersion) : String :=
  natString v.major ++ "." ++ natString v.minor

/-- Modelled from the spec: the display form of a path, used only for
the listing output. -/
def FsPath.display (p : FsPath) : String :=
  "/" ++ String.intercalate "/" p

/-- The model of a shebang byte stream handed to `parse_python_shebang`.
`firstTwo` is the two-byte buffer after the initial `read` call (`none`
models a read error; a short read leaves the zero-initialised bytes in
place), and `restLine` is the result of `read_line` on the remainder
(`none` models a read or UTF-8 decoding error; the string may include
the trailing newline, exactly as `read_line` yields it). -/
structure ByteStream where
  firstTwo : Option (Nat × Nat)
  restLine : Option String

/-- The world a single launcher invocation runs in: environment
variables, filesystem facts and the two external collaborators. -/
structure World where
  /-- The value of the `VIRTUAL_ENV` environment variable (`env::var_os`). -/
  virtualEnv : Option String
  /-- The current working directory (`env::current_dir`); `none` models
  the error case. -/
  cwd : Option FsPath
  /-- Which paths exist as files (`Path::is_file`). -/
  isFile : FsPath → Bool
  /-- Opening a file by name (`File::open` plus its contents); `none`
  models an open failure. -/
  fileContents : String → Option ByteStream
  /-- Environment lookup (`env::var`); `none` models unset (or
  non-unicode). -/
  env : String → Option String
  /-- Modelled from the spec: the external path-search collaborator
  `crate::find_executable` (lib.rs, not under src/). -/
  search : RequestedVersion → Option FsPath
  /-- Modelled from the spec: the external enumeration collaborator
  `crate::all_executables` (lib.rs, not under src/), as a key-value
  list. -/
  allExecutables : List (ExactVersion × FsPath)
  /-- Modelled from the spec: the help text formatting (HELP.txt is not
  under src/), out of core scope. -/
  help_format : FsPath → FsPath → String

/-- The expected directory name for virtual environments
(`DEFAULT_VENV_DIR`). -/
def DEFAULT_VENV_DIR : String := ".venv"

/-- Embedding of `relative_venv_path`. -/
def relative_venv_path (add_default : Bool) : FsPath :=
  (if add_default then [DEFAULT_VENV_DIR] else []) ++ ["bin", "python"]

/-- Embedding of `venv_executable_path`: the venv root joined with the
fixed relative layout `bin/python`. -/
def venv_executable_path (venv_root : String) : FsPath :=
  pathOfString venv_root ++ relative_venv_path false

/-- Embedding of `activated_venv`: maps over the `VIRTUAL_ENV` value,
with no emptiness or existence check. -/
def activated_venv (w : World) : Option FsPath :=
  w.virtualEnv.map (fun venv_root => venv_executable_path venv_root)

/-- The ancestor chain of a path (`Path::ancestors`): the path itself,
then each parent, ending at the root `[]`. -/
def ancestors (p : FsPath) : List FsPath :=
  (List.range (List.length p + 1)).map (fun i => List.take (List.length p - i) p)

/-- Embedding of `venv_path_search`: walk the ancestors of the current
working directory looking for an existing `.venv/bin/python` file; a
missing working directory is a silent `none`. -/
def venv_path_search (w : World) : Option FsPath :=
  match w.cwd with
  | none => none
  | some cwd =>
    (ancestors cwd).findSome? (fun path =>
      let venv_path := path ++ relative_venv_path true
      if w.isFile venv_path then some venv_path else none)

/-- Embedding of `venv_executable`. -/
def venv_executable (w : World) : Option FsPath :=
  (activated_venv w).orElse (fun _ => venv_path_search w)

/-- Embedding of `version_from_flag`: a version specifier CLI argument
must start with the marker `-`; the rest is handed to the
`RequestedVersion` grammar. -/
def version_from_flag (arg : String) : Option RequestedVersion :=
  if ¬ startsWithChars arg.data ['-'] then
    none
  else
    (RequestedVersion.from_chars (arg.data.drop 1)).toOption

/-- The ordered allow-list of interpreter invocation forms accepted in
a shebang line (`accepted_paths` in `parse_python_shebang`). -/
def accepted_paths : List String :=
  ["python", "/usr/bin/python", "/usr/local/bin/python", "/usr/bin/env python"]

/-- The loop body of `parse_python_shebang`: try each accepted
interpreter path in order; on the first prefix match, parse the
remainder of the line and return, successfully or not. -/
def shebangScan : List String → List Char → Option RequestedVersion
  | [], _ => none
  | acceptable_path :: rest, line =>
    if startsWithChars line acceptable_path.data then
      (RequestedVersion.from_chars (line.drop acceptable_path.data.length)).toOption
    else
      shebangScan rest line

/-- Embedding of `parse_python_shebang`: require the two-byte `#!`
marker (read errors and mismatches yield `none`), read the rest of the
first line (read/decoding errors yield `none`), trim it, and scan the
allow-list. -/
def parse_python_shebang (stream : ByteStream) : Option RequestedVersion :=
  match stream.firstTwo with
  | none => none
  | some (b0, b1) =>
    if b0 = 35 ∧ b1 = 33 then
      match stream.restLine with
      | none => none
      | some first_line => shebangScan accepted_paths (trimChars first_line.data)
    else
      none

/-- The shebang refinement step of `find_executable` (cli.rs lines
294-309): open the first positional argument and parse its shebang;
a successful parse yields the parsed request, and any failure to open
or parse leaves the request at `Any` (the branch only runs when the
working request is `Any`). -/
def shebang_refinement (w : World) (possible_file : String) : RequestedVersion :=
  match w.fileContents possible_file with
  | none => RequestedVersion.Any
  | some open_file =>
    match parse_python_shebang open_file with
    | some shebang_version => shebang_version
    | none => RequestedVersion.Any

/-- The first phase of `find_executable` (cli.rs lines 291-310), run
only for an `Any` request: a located virtual environment fixes the
chosen path; otherwise the first positional argument, if any, may
refine the request via its shebang. Returns the chosen path (if any)
and the working request. -/
def phase1 (w : World) (version : RequestedVersion) (args : List String) :
    Option FsPath × RequestedVersion :=
  if version = RequestedVersion.Any then
    match venv_executable w with
    | some venv_path => (some venv_path, version)
    | none =>
      match args with
      | [] => (none, version)
      | possible_file :: _ => (none, shebang_refinement w possible_file)
  else
    (none, version)

/-- The second phase of `find_executable` (cli.rs lines 312-329), run
only when no path was chosen: a non-empty override environment
variable re-parses into the working request (a parse failure here is
fatal), then the path-search collaborator runs; an empty search result
becomes `NoExecutableFound` carrying the working request. -/
def resolve_env_and_search (w : World) (rv : RequestedVersion) :
    Except Error FsPath :=
  let env_step : Except Error RequestedVersion :=
    match rv.env_var with
    | none => Except.ok rv
    | some env_var =>
      match w.env env_var with
      | none => Except.ok rv
      | some env_var_value =>
        if env_var_value = "" then
          Except.ok rv
        else
          RequestedVersion.from_str env_var_value
  env_step.bind (fun requested_version =>
    match w.search requested_version with
    | some executable_path => Except.ok executable_path
    | none => Except.error (Error.NoExecutableFound requested_version))

/-- Embedding of `find_executable` (cli.rs lines 287-332): phase 1 may
choose a path (virtual environment) or refine the request (shebang);
if a path was chosen it is returned as-is, otherwise phase 2 consults
the override variable and the path-search collaborator. -/
def find_executable (w : World) (version : RequestedVersion)
    (args : List String) : Except Error FsPath :=
  match phase1 w version args with
  | (some chosen_path, _) => Except.ok chosen_path
  | (none, requested_version) => resolve_env_and_search w requested_version

/-- Modelled from the spec: the ordering on `ExactVersion` (derived in
lib.rs, not under src/) is the lexicographic order on (major, minor);
higher versions sort greater. -/
def ExactVersion.lt (a b : ExactVersion) : Prop :=
  a.major < b.major ∨ (a.major = b.major ∧ a.minor < b.minor)

instance : DecidableRel ExactVersion.lt := fun a b => by
  unfold ExactVersion.lt
  infer_instance

/-- Lexicographic order on path component lists, modelling the standard
ordering of `PathBuf` used as the tie-break of the pair sort. -/
def FsPath.le : List String → List String → Prop
  | [], _ => True
  | _ :: _, [] => False
  | a :: as_, b :: bs => a < b ∨ (a = b ∧ FsPath.le as_ bs)

instance FsPath.le.decidable : ∀ p q : List String, Decidable (FsPath.le p q)
  | [], _ => Decidable.isTrue trivial
  | _ :: _, [] => Decidable.isFalse (fun h => h)
  | a :: as_, b :: bs =>
    have : Decidable (FsPath.le as_ bs) := FsPath.le.decidable as_ bs
    by
      unfold FsPath.le
      infer_instance

/-- The ordering on the `(ExactVersion, PathBuf)` pairs sorted by
`list_executables`: lexicographic, version first, path as tie-break. -/
def pair_le (x y : ExactVersion × FsPath) : Prop :=
  ExactVersion.lt x.1 y.1 ∨ (x.1 = y.1 ∧ FsPath.le x.2 y.2)

instance : DecidableRel pair_le := fun x y => by
  unfold pair_le
  infer_instance

/-- The sorted pair list built by `list_executables`: ascending sort
(`sort_unstable` on the derived pair ordering) followed by `reverse`,
yielding descending order. -/
def sorted_executable_pairs (executables : List (ExactVersion × FsPath)) :
    List (ExactVersion × FsPath) :=
  (List.insertionSort pair_le executables).reverse

/-- Modelled from the spec: one output row of the listing table (the
table itself is rendered by the external comfy_table crate): two
columns, version then path, separated by a vertical-bar-style glyph. -/
def table_row (entry : ExactVersion × FsPath) : String :=
  entry.1.to_string ++ " │ " ++ entry.2.display

/-- Embedding of `list_executables`: an empty enumeration is
`NoExecutableFound(Any)`; otherwise the pairs are sorted descending and
rendered one row per interpreter, with a trailing newline.  The row
rendering is modelled from the spec (comfy_table is external). -/
def list_executables (executables : List (ExactVersion × FsPath)) :
    Except Error String :=
  if executables.isEmpty then
    Except.error (Error.NoExecutableFound RequestedVersion.Any)
  else
    Except.ok
      (String.intercalate "\n"
        ((sorted_executable_pairs executables).map table_row) ++ "\n")

/-- Embedding of the `Action` enum (named `CliAction` here because Lean's
library already takes the name `Action`). -/
inductive CliAction where
  | Help : String → FsPath → CliAction
  | List : String → CliAction
  | Execute : FsPath → FsPath → List String → CliAction
deriving DecidableEq

/-- Embedding of `help_message`, delegating to the world's formatting
collaborator (HELP.txt and the crate version are not under src/). -/
def help_message (w : World) (launcher_path executable_path : FsPath) : String :=
  w.help_format launcher_path executable_path

/-- Rust slice-from indexing `&l[i..]`: defined when `i ≤ l.length`,
a panic (`none`) otherwise. -/
def rustSliceFrom (l : List String) (i : Nat) : Option (List String) :=
  if i ≤ l.length then some (l.drop i) else none

/-- Embedding of `Action::from_main` (cli.rs lines 106-144).  The outer
`Option` models panics of the slice indexing (`argv[0]`, `&argv[1..]`,
`&argv[2..]`): `none` means the Rust code panics on that input. -/
def from_main? (w : World) (argv : List String) :
    Option (Except Error CliAction) :=
  match argv.get? 0 with
  | none => none
  | some arg0 =>
    let launcher_path := pathOfString arg0
    match argv.get? 1 with
    | some flag =>
      if flag = "-h" ∨ flag = "--help" ∨ flag = "--list" then
        if argv.length > 2 then
          some (Except.error (Error.IllegalArgument launcher_path flag))
        else if flag = "--list" then
          some ((list_executables w.allExecutables).map CliAction.List)
        else
          match w.search RequestedVersion.Any with
          | none =>
            some (Except.error (Error.NoExecutableFound RequestedVersion.Any))
          | some executable_path =>
            some (Except.ok (CliAction.Help
              (help_message w launcher_path executable_path) executable_path))
      else
        match version_from_flag flag with
        | some version =>
          match rustSliceFrom argv 2 with
          | none => none
          | some rest =>
            some ((find_executable w version rest).map
              (fun executable => CliAction.Execute launcher_path executable rest))
        | none =>
          match rustSliceFrom argv 1 with
          | none => none
          | some rest =>
            some ((find_executable w RequestedVersion.Any rest).map
              (fun executable => CliAction.Execute launcher_path executable rest))
    | none =>
      match rustSliceFrom argv 1 with
      | none => none
      | some rest =>
        some ((find_executable w RequestedVersion.Any rest).map
          (fun executable => CliAction.Execute launcher_path executable rest))

/-- The enumeration used by the spec's listing example: interpreters
2.7, 3.6 and 3.7. -/
def exampleExecutables : List (ExactVersion × FsPath) :=
  [(⟨2, 7⟩, ["a27"]), (⟨3, 6⟩, ["a36"]), (⟨3, 7⟩, ["a37"])]

/-- A world with nothing set: no venv, no working directory, no files,
no environment variables, no discoverable interpreters. -/
def emptyWorld : World where
  virtualEnv := none
  cwd := none
  isFile := fun _ => false
  fileContents := fun _ => none
  env := fun _ => none
  search := fun _ => none
  allExecutables := []
  help_format := fun _ _ => ""

/-- A world with an activated virtual environment at /venv. -/
def venvWorld : World := { emptyWorld with virtualEnv := some "/venv" }

/-- A world whose VIRTUAL_ENV variable is set to the empty string. -/
def emptyVenvVarWorld : World := { emptyWorld with virtualEnv := some "" }

/-- A world with a discoverable .venv two levels above the working
directory. -/
def walkWorld : World := { emptyWorld with
  cwd := some ["home", "user", "proj", "sub"],
  isFile := fun p => p = ["home", "user", "proj", ".venv", "bin", "python"] }

/-- A world holding one script with a python3.7 shebang and an
interpreter matching it. -/
def shebangWorld : World := { emptyWorld with
  fileContents := fun n =>
    if n = "script.py" then some ⟨some (35, 33), some " python3.7"⟩ else none,
  search := fun v =>
    if v = RequestedVersion.Exact 3 7 then some ["py37"] else none }

/-- A world with a well-formed PY_PYTHON override and a matching
interpreter. -/
def envOverrideWorld : World := { emptyWorld with
  env := fun n => if n = "PY_PYTHON" then some "3.6" else none,
  search := fun v =>
    if v = RequestedVersion.Exact 3 6 then some ["py36"] else none }

/-- A world whose PY_PYTHON override does not parse as a version. -/
def badEnvWorld : World := { emptyWorld with
  env := fun n => if n = "PY_PYTHON" then some "rutabaga" else none }

theorem FsPath.le_trans :
    ∀ p q r : List String, FsPath.le p q → FsPath.le q r → FsPath.le p r
  | [], _, _, _, _ => trivial
  | _ :: _, [], _, h1, _ => h1.elim
  | _ :: _, _ :: _, [], _, h2 => h2.elim
  | a :: as_, b :: bs, c :: cs, h1, h2 => by
    simp only [FsPath.le] at h1 h2 ⊢
    rcases h1 with h1 | ⟨he1, h1'⟩ <;> rcases h2 with h2 | ⟨he2, h2'⟩
    · exact Or.inl (lt_trans h1 h2)
    · exact Or.inl (he2 ▸ h1)
    · exact Or.inl (he1 ▸ h2)
    · exact Or.inr ⟨he1.trans he2, FsPath.le_trans as_ bs cs h1' h2'⟩

theorem FsPath.le_total :
    ∀ p q : List String, FsPath.le p q ∨ FsPath.le q p
  | [], _ => Or.inl trivial
  | _ :: _, [] => Or.inr trivial
  | a :: as_, b :: bs => by
    rcases lt_trichotomy a b with h | h | h
    · exact Or.inl (Or.inl h)
    · rcases FsPath.le_total as_ bs with h' | h'
      · exact Or.inl (Or.inr ⟨h, h'⟩)
      · exact Or.inr (Or.inr ⟨h.symm, h'⟩)
    · exact Or.inr (Or.inl h)

theorem ExactVersion.lt_trans {a b c : ExactVersion} :
    ExactVersion.lt a b → ExactVersion.lt b c → ExactVersion.lt a c := by
  intro h1 h2
  simp only [ExactVersion.lt] at h1 h2 ⊢
  omega

theorem ExactVersion.lt_trichot (a b : ExactVersion) :
    ExactVersion.lt a b ∨ a = b ∨ ExactVersion.lt b a := by
  rcases a with ⟨am, an⟩
  rcases b with ⟨bm, bn⟩
  simp only [ExactVersion.lt, ExactVersion.mk.injEq]
  omega

instance : IsTrans (ExactVersion × FsPath) pair_le where
  trans := by
    rintro ⟨xa, xp⟩ ⟨ya, yp⟩ ⟨za, zp⟩ h1 h2
    simp only [pair_le] at h1 h2 ⊢
    rcases h1 with h1 | ⟨he1, h1'⟩ <;> rcases h2 with h2 | ⟨he2, h2'⟩
    · exact Or.inl (ExactVersion.lt_trans h1 h2)
    · exact Or.inl (he2 ▸ h1)
    · exact Or.inl (he1 ▸ h2)
    · exact Or.inr ⟨he1.trans he2, FsPath.le_trans xp yp zp h1' h2'⟩

instance : IsTotal (ExactVersion × FsPath) pair_le where
  total := by
    rintro ⟨xa, xp⟩ ⟨ya, yp⟩
    simp only [pair_le]
    rcases ExactVersion.lt_trichot xa ya with h | h | h
    · exact Or.inl (Or.inl h)
    · rcases FsPath.le_total xp yp with h' | h'
      · exact Or.inl (Or.inr ⟨h, h'⟩)
      · exact Or.inr (Or.inr ⟨h.symm, h'⟩)
    · exact Or.inr (Or.inl h)

theorem findSome?_if_eq_map_find? {α β : Type} (f : α → Bool) (g : α → β) :
    ∀ l : List α,
      (l.findSome? (fun x => if f x then some (g x) else none)) =
        (l.find? f).map g
  | [] => rfl
  | x :: xs => by
    by_cases h : f x
    · simp [List.findSome?_cons, List.find?_cons, h]
    · simp [List.findSome?_cons, List.find?_cons, h,
        findSome?_if_eq_map_find? f g xs]

theorem shebangScan_eq_find? (t : List Char) :
    ∀ ps : List String,
      shebangScan ps t =
        match ps.find? (fun q => startsWithChars t q.data) with
        | some p => (RequestedVersion.from_chars (t.drop p.data.length)).toOption
        | none => none
  | [] => rfl
  | p :: ps => by
    by_cases h : startsWithChars t p.data
    · simp [shebangScan, List.find?_cons, h]
    · simp [shebangScan, List.find?_cons, h, shebangScan_eq_find? t ps]

/-- Claim C1: when the initial request is Any and the Virtual-Environment
Locator returns a path, that path is the final result of the Resolution
Pipeline, whatever the rest of the world (filesystem existence, shebang
files, override variables, search collaborator) looks like. -/
theorem claim_c1 (w : World) (args : List String) (p : FsPath)
    (h : venv_executable w = some p) :
    find_executable w RequestedVersion.Any args = Except.ok p := by
  simp [find_executable, phase1, h]

theorem claim_c1_witness :
    venv_executable venvWorld = some ["venv", "bin", "python"] ∧
    find_executable venvWorld RequestedVersion.Any ["ignored.py"] =
      Except.ok ["venv", "bin", "python"] :=
  ⟨by decide, claim_c1 venvWorld ["ignored.py"] ["venv", "bin", "python"] (by decide)⟩

/-- Claim C2 counterexample: with VIRTUAL_ENV set to the empty string
(set but not non-empty) the locator still answers with a path, where
the claim as stated requires None. -/
theorem claim_c2_counterexample :
    emptyVenvVarWorld.virtualEnv = some "" ∧
    venv_executable emptyVenvVarWorld = some ["bin", "python"] := by
  constructor
  · rfl
  · decide

/-- Claim C2 (amended): first-success-wins: (1) whenever the
VIRTUAL_ENV variable is set — empty or not — the result is the root
joined with bin/python, with no existence check; (2) when it is unset,
the first ancestor of the working directory (inclusive) holding a
.venv/bin/python file wins, a missing working directory giving a
silent none; (3) otherwise none. -/
theorem claim_c2 (w : World) :
    (∀ root, w.virtualEnv = some root →
      venv_executable w = some (pathOfString root ++ ["bin", "python"])) ∧
    (w.virtualEnv = none → w.cwd = none → venv_executable w = none) ∧
    (∀ cwd, w.virtualEnv = none → w.cwd = some cwd →
      venv_executable w =
        ((ancestors cwd).find?
            (fun d => w.isFile (d ++ [DEFAULT_VENV_DIR, "bin", "python"]))).map
          (fun d => d ++ [DEFAULT_VENV_DIR, "bin", "python"])) := by
  refine ⟨?_, ?_, ?_⟩
  · intro root h
    simp [venv_executable, activated_venv, h, venv_executable_path,
      relative_venv_path]
  · intro h1 h2
    simp [venv_executable, activated_venv, venv_path_search, h1, h2]
  · intro cwd h1 h2
    have h3 : venv_executable w = venv_path_search w := by
      simp [venv_executable, activated_venv, h1]
    rw [h3]
    simp only [venv_path_search, h2]
    have h4 := findSome?_if_eq_map_find?
      (fun d => w.isFile (d ++ relative_venv_path true))
      (fun d => d ++ relative_venv_path true) (ancestors cwd)
    simpa [relative_venv_path, DEFAULT_VENV_DIR] using h4

theorem claim_c2_witness :
    venv_executable venvWorld = some ["venv", "bin", "python"] ∧
    venv_executable emptyWorld = none ∧
    venv_executable walkWorld =
      some ["home", "user", "proj", ".venv", "bin", "python"] := by
  refine ⟨?_, ?_, ?_⟩
  · exact ((claim_c2 venvWorld).1 "/venv" rfl).trans (by decide)
  · exact (claim_c2 emptyWorld).2.1 rfl rfl
  · exact ((claim_c2 walkWorld).2.2 ["home", "user", "proj", "sub"] rfl rfl).trans
      (by decide)

/-- Claim C7: the Shebang Parser degrades to None — never a fatal
error — when the two leading bytes cannot be read, when they are not
the ASCII bytes of the #! marker, or when the remainder of the first
line cannot be read or decoded. -/
theorem claim_c7 (st : ByteStream) :
    (st.firstTwo = none → parse_python_shebang st = none) ∧
    (∀ b0 b1, st.firstTwo = some (b0, b1) → ¬(b0 = 35 ∧ b1 = 33) →
      parse_python_shebang st = none) ∧
    (st.firstTwo = some (35, 33) → st.restLine = none →
      parse_python_shebang st = none) := by
  refine ⟨?_, ?_, ?_⟩
  · intro h
    simp [parse_python_shebang, h]
  · intro b0 b1 h hne
    simp [parse_python_shebang, h, hne]
  · intro h1 h2
    simp [parse_python_shebang, h1, h2]

/-- Claim C3: with an Any request, no virtual environment and at least
one positional argument, the pipeline runs the Shebang Parser on the
first positional argument; a successful parse becomes the working
request and the env-var/search phase still runs (no short-circuit),
while open or parse failures silently leave the request Any. -/
theorem claim_c3 (w : World) (file : String) (rest : List String)
    (h : venv_executable w = none) :
    find_executable w RequestedVersion.Any (file :: rest) =
      resolve_env_and_search w (shebang_refinement w file) ∧
    (∀ st v, w.fileContents file = some st → parse_python_shebang st = some v →
      shebang_refinement w file = v) ∧
    (w.fileContents file = none →
      shebang_refinement w file = RequestedVersion.Any) ∧
    (∀ st, w.fileContents file = some st → parse_python_shebang st = none →
      shebang_refinement w file = RequestedVersion.Any) := by
  refine ⟨?_, ?_, ?_, ?_⟩
  · simp [find_executable, phase1, h]
  · intro st v hst hv
    simp [shebang_refinement, hst, hv]
  · intro hst
    simp [shebang_refinement, hst]
  · intro st hst hv
    simp [shebang_refinement, hst, hv]

theorem claim_c3_witness :
    venv_executable shebangWorld = none ∧
    shebang_refinement shebangWorld "script.py" = RequestedVersion.Exact 3 7 ∧
    find_executable shebangWorld RequestedVersion.Any ["script.py"] =
      resolve_env_and_search shebangWorld (RequestedVersion.Exact 3 7) :=
  ⟨by decide, by decide, by
    have h := (claim_c3 shebangWorld "script.py" [] (by decide)).1
    rw [h]
    have h2 : shebang_refinement shebangWorld "script.py" =
        RequestedVersion.Exact 3 7 := by decide
    rw [h2]⟩

/-- Claim C4: when phase 1 chose no path, a set and non-empty override
variable associated with the working request is parsed by the version
grammar; a parse failure is the fatal overall result, and a parse
success replaces the request before the search collaborator runs. -/
theorem claim_c4 (w : World) (v : RequestedVersion) (args : List String)
    (name s : String)
    (h1 : (phase1 w v args).1 = none)
    (h2 : (phase1 w v args).2.env_var = some name)
    (h3 : w.env name = some s) (h4 : s ≠ "") :
    (∀ e, RequestedVersion.from_str s = Except.error e →
      find_executable w v args = Except.error e) ∧
    (∀ v2, RequestedVersion.from_str s = Except.ok v2 →
      find_executable w v args =
        (match w.search v2 with
         | some p => Except.ok p
         | none => Except.error (Error.NoExecutableFound v2))) := by
  have hfe : find_executable w v args =
      resolve_env_and_search w (phase1 w v args).2 := by
    rcases hp : phase1 w v args with ⟨c, rv⟩
    have hc : c = none := by rw [hp] at h1; exact h1
    subst hc
    simp [find_executable, hp]
  constructor
  · intro e he
    rw [hfe]
    simp [resolve_env_and_search, h2, h3, h4, RequestedVersion.from_str] at he ⊢
    simp [he, Except.bind]
  · intro v2 hv2
    rw [hfe]
    simp [resolve_env_and_search, h2, h3, h4, RequestedVersion.from_str] at hv2 ⊢
    simp [hv2, Except.bind]

theorem claim_c4_witness :
    (phase1 envOverrideWorld RequestedVersion.Any []).1 = none ∧
    envOverrideWorld.env "PY_PYTHON" = some "3.6" ∧
    find_executable envOverrideWorld RequestedVersion.Any [] =
      Except.ok ["py36"] ∧
    (phase1 badEnvWorld RequestedVersion.Any []).1 = none ∧
    badEnvWorld.env "PY_PYTHON" = some "rutabaga" ∧
    find_executable badEnvWorld RequestedVersion.Any [] =
      Except.error Error.BadVersionFormat := by
  refine ⟨by decide, by decide, ?_, by decide, by decide, ?_⟩
  · have h := (claim_c4 envOverrideWorld RequestedVersion.Any [] "PY_PYTHON"
      "3.6" (by decide) (by decide) (by decide) (by decide)).2
      (RequestedVersion.Exact 3 6) (by decide)
    exact h.trans (by decide)
  · exact (claim_c4 badEnvWorld RequestedVersion.Any [] "PY_PYTHON"
      "rutabaga" (by decide) (by decide) (by decide) (by decide)).1
      Error.BadVersionFormat (by decide)

/-- Claim C5 counterexample: the version grammar does not fail on the
empty string; it yields Any (and so the bare marker flag is accepted as
an Any request), where the claim says the empty string is a failure. -/
theorem claim_c5_counterexample :
    RequestedVersion.from_str "" = Except.ok RequestedVersion.Any ∧
    version_from_flag "-" = some RequestedVersion.Any := by
  decide

/-- Claim C5 (amended): the version grammar maps "3" to MajorOnly(3),
"3.6" to Exact(3,6) and "42.13" to Exact(42,13); it fails, rather than
truncating, on any extra dot-separated component and on any non-numeric
component of a non-empty input; the empty string is not a failure but
parses to Any. -/
theorem claim_c5 :
    RequestedVersion.from_str "3" = Except.ok (RequestedVersion.MajorOnly 3) ∧
    RequestedVersion.from_str "3.6" = Except.ok (RequestedVersion.Exact 3 6) ∧
    RequestedVersion.from_str "42.13" =
      Except.ok (RequestedVersion.Exact 42 13) ∧
    RequestedVersion.from_str "3.6.4" = Except.error Error.BadVersionFormat ∧
    RequestedVersion.from_str "" = Except.ok RequestedVersion.Any ∧
    (∀ cs : List Char, 3 ≤ (splitOnChar '.' cs).length →
      RequestedVersion.from_chars cs = Except.error Error.BadVersionFormat) ∧
    (∀ cs : List Char, cs ≠ [] → ∀ piece ∈ splitOnChar '.' cs,
      parseNatChars piece = none →
      RequestedVersion.from_chars cs = Except.error Error.BadVersionFormat) := by
  refine ⟨by decide, by decide, by decide, by decide, by decide, ?_, ?_⟩
  · intro cs hlen
    match cs with
    | [] => simp [splitOnChar] at hlen
    | c :: cs' =>
      rw [RequestedVersion.from_chars]
      simp only [List.isEmpty_cons, Bool.false_eq_true, if_false]
      rcases hsplit : splitOnChar '.' (c :: cs') with _ | ⟨a, _ | ⟨b, _ | _⟩⟩ <;>
        simp_all
  · intro cs hne piece hmem hnone
    match cs with
    | [] => exact absurd rfl hne
    | c :: cs' =>
      rw [RequestedVersion.from_chars]
      simp only [List.isEmpty_cons, Bool.false_eq_true, if_false]
      rcases hsplit : splitOnChar '.' (c :: cs') with _ | ⟨a, _ | ⟨b, _ | _⟩⟩
      · rw [hsplit] at hmem
      · rw [hsplit] at hmem
        have : piece = a := by simpa using hmem
        subst this
        simp [hnone]
      · rw [hsplit] at hmem
        have : piece = a ∨ piece = b := by simpa using hmem
        rcases this with h | h <;> subst h
        · simp [hnone]
        · cases parseNatChars a <;> simp [hnone]
      · rfl

theorem claim_c5_witness :
    (3 ≤ (splitOnChar '.' "1.2.3.4".data).length ∧
      RequestedVersion.from_chars "1.2.3.4".data =
        Except.error Error.BadVersionFormat) ∧
    ("x7".data ≠ [] ∧ "x7".data ∈ splitOnChar '.' "x7".data ∧
      parseNatChars "x7".data = none ∧
      RequestedVersion.from_chars "x7".data =
        Except.error Error.BadVersionFormat) :=
  ⟨⟨by decide, claim_c5.2.2.2.2.2.1 "1.2.3.4".data (by decide)⟩,
   ⟨by decide, by decide, by decide,
    claim_c5.2.2.2.2.2.2 "x7".data (by decide) "x7".data (by decide)
      (by decide)⟩⟩

/-- Claim C6: on a stream opening with the #! marker and a readable
line, the parser matches the trimmed line against the ordered
allow-list by prefix; the first match hands the remainder to the
version grammar (empty remainder meaning Any, a grammar failure making
the whole shebang None), and no match yields None. -/
theorem claim_c6 (st : ByteStream) (line : String)
    (h1 : st.firstTwo = some (35, 33)) (h2 : st.restLine = some line) :
    (∀ p, accepted_paths.find?
        (fun q => startsWithChars (trimChars line.data) q.data) = some p →
      parse_python_shebang st =
        (RequestedVersion.from_chars
          ((trimChars line.data).drop p.data.length)).toOption ∧
      ((trimChars line.data).drop p.data.length = [] →
        parse_python_shebang st = some RequestedVersion.Any) ∧
      (∀ e, RequestedVersion.from_chars
          ((trimChars line.data).drop p.data.length) = Except.error e →
        parse_python_shebang st = none)) ∧
    (accepted_paths.find?
        (fun q => startsWithChars (trimChars line.data) q.data) = none →
      parse_python_shebang st = none) := by
  have hps : parse_python_shebang st =
      shebangScan accepted_paths (trimChars line.data) := by
    simp [parse_python_shebang, h1, h2]
  have hscan := shebangScan_eq_find? (trimChars line.data) accepted_paths
  constructor
  · intro p hp
    rw [hp] at hscan
    have heq : parse_python_shebang st =
        (RequestedVersion.from_chars
          ((trimChars line.data).drop p.data.length)).toOption :=
      hps.trans hscan
    refine ⟨heq, ?_, ?_⟩
    · intro hdrop
      rw [heq, hdrop]
      rfl
    · intro e herr
      rw [heq, herr]
      rfl
  · intro hnone
    rw [hnone] at hscan
    exact hps.trans hscan

theorem claim_c6_witness :
    accepted_paths.find?
      (fun q => startsWithChars
        (trimChars " /usr/bin/env python3.7".data) q.data) =
      some "/usr/bin/env python" ∧
    parse_python_shebang ⟨some (35, 33), some " /usr/bin/env python3.7"⟩ =
      some (RequestedVersion.Exact 3 7) ∧
    accepted_paths.find?
      (fun q => startsWithChars (trimChars " /bin/sh".data) q.data) = none ∧
    parse_python_shebang ⟨some (35, 33), some " /bin/sh"⟩ = none := by
  refine ⟨by decide, ?_, by decide, ?_⟩
  · have h := ((claim_c6 ⟨some (35, 33), some " /usr/bin/env python3.7"⟩
      " /usr/bin/env python3.7" rfl rfl).1 "/usr/bin/env python"
      (by decide)).1
    exact h.trans (by decide)
  · exact (claim_c6 ⟨some (35, 33), some " /bin/sh"⟩ " /bin/sh" rfl rfl).2
      (by decide)

theorem claim_c7_witness :
    parse_python_shebang ⟨none, some "x"⟩ = none ∧
    parse_python_shebang ⟨some (35, 35), some " python"⟩ = none ∧
    parse_python_shebang ⟨some (35, 33), none⟩ = none :=
  ⟨(claim_c7 ⟨none, some "x"⟩).1 rfl,
   (claim_c7 ⟨some (35, 35), some " python"⟩).2.1 35 35 rfl (by decide),
   (claim_c7 ⟨some (35, 33), none⟩).2.2 rfl rfl⟩

theorem rustSliceFrom_one (a : String) (l : List String) :
    rustSliceFrom (a :: l) 1 = some l := by
  simp [rustSliceFrom, Nat.le_add_left, Nat.succ_le_succ]

theorem rustSliceFrom_two (a b : String) (l : List String) :
    rustSliceFrom (a :: b :: l) 2 = some l := by
  simp [rustSliceFrom, Nat.le_add_left]

/-- Claim C8: a help flag (either spelling) or the listing flag given as
the first launcher argument together with any further argument makes the
Action Resolver fail with IllegalArgument naming that exact flag — no
Help or List action is produced. -/
theorem claim_c8 (w : World) (arg0 flag extra : String) (rest : List String)
    (h : flag = "-h" ∨ flag = "--help" ∨ flag = "--list") :
    from_main? w (arg0 :: flag :: extra :: rest) =
      some (Except.error (Error.IllegalArgument (pathOfString arg0) flag)) := by
  have hlen : (arg0 :: flag :: extra :: rest).length > 2 := by
    simp [List.length_cons]
  simp [from_main?, h, hlen]

theorem claim_c8_witness :
    (("--help" : String) = "-h" ∨ ("--help" : String) = "--help" ∨
      ("--help" : String) = "--list") ∧
    from_main? emptyWorld ["py", "--help", "--list"] =
      some (Except.error (Error.IllegalArgument ["py"] "--help")) :=
  ⟨Or.inr (Or.inl rfl),
   (claim_c8 emptyWorld "py" "--help" "--list" [] (Or.inr (Or.inl rfl))).trans
     (by decide)⟩

/-- Claim C9: listing an empty enumeration fails with
NoExecutableFound(Any); a non-empty enumeration (with the distinct keys
a map guarantees) renders one row per interpreter, in strictly
descending version order, each row putting the version string before
its own path string, and every enumerated pair contributes its row. -/
theorem claim_c9 :
    list_executables [] =
      Except.error (Error.NoExecutableFound RequestedVersion.Any) ∧
    ∀ executables : List (ExactVersion × FsPath), executables ≠ [] →
      (executables.map Prod.fst).Nodup →
      list_executables executables =
        Except.ok (String.intercalate "\n"
          ((sorted_executable_pairs executables).map table_row) ++ "\n") ∧
      (sorted_executable_pairs executables).Perm executables ∧
      (sorted_executable_pairs executables).Pairwise
        (fun x y => ExactVersion.lt y.1 x.1) ∧
      (∀ e ∈ executables,
        table_row e ∈ (sorted_executable_pairs executables).map table_row) ∧
      (∀ e, table_row e = e.1.to_string ++ " │ " ++ e.2.display) := by
  constructor
  · rfl
  · intro ex hne hnd
    have hperm : (sorted_executable_pairs ex).Perm ex :=
      (List.reverse_perm _).trans (List.perm_insertionSort pair_le ex)
    refine ⟨?_, hperm, ?_, ?_, fun e => rfl⟩
    · simp [list_executables, hne]
    · have hs : List.Sorted pair_le (List.insertionSort pair_le ex) :=
        List.sorted_insertionSort pair_le ex
      have hnd2 : ((List.insertionSort pair_le ex).map Prod.fst).Nodup :=
        (((List.perm_insertionSort pair_le ex).map Prod.fst).nodup_iff).mpr hnd
      have hpw_ne : (List.insertionSort pair_le ex).Pairwise
          (fun x y => x.1 ≠ y.1) := List.pairwise_map.mp hnd2
      have hpw : (List.insertionSort pair_le ex).Pairwise
          (fun x y => ExactVersion.lt x.1 y.1) := by
        refine (hs.and hpw_ne).imp ?_
        rintro a b ⟨hle, hab⟩
        rcases hle with h | ⟨heq, _⟩
        · exact h
        · exact absurd heq hab
      rw [sorted_executable_pairs, List.pairwise_reverse]
      exact hpw
    · intro e he
      exact List.mem_map_of_mem table_row (hperm.mem_iff.mpr he)

theorem claim_c9_witness :
    exampleExecutables ≠ [] ∧ (exampleExecutables.map Prod.fst).Nodup ∧
    list_executables exampleExecutables =
      Except.ok ("3.7 │ /a37" ++ "\n" ++ "3.6 │ /a36" ++ "\n" ++
        "2.7 │ /a27" ++ "\n") :=
  ⟨by decide, by decide,
   ((claim_c9.2 exampleExecutables (by decide) (by decide)).1).trans
     (by decide)⟩

/-- Claim C10: Action::from_main reads argv[0] unconditionally, so the
empty argument vector panics (modelled as none); for every non-empty
argument vector all the embedded indexing and slicing succeeds and the
resolver returns a value. -/
theorem claim_c10 (w : World) :
    from_main? w ([] : List String) = none ∧
    ∀ argv : List String, argv ≠ [] → ∃ r, from_main? w argv = some r := by
  constructor
  · rfl
  · intro argv hne
    match argv with
    | [] => exact absurd rfl hne
    | [a0] => exact ⟨_, rfl⟩
    | a0 :: b :: rest =>
      refine Option.isSome_iff_exists.mp ?_
      rw [from_main?]
      simp only [List.get?_cons_zero, List.get?_cons_succ, rustSliceFrom_two,
        rustSliceFrom_one]
      split
      · split
        · rfl
        · split
          · rfl
          · split <;> rfl
      · split <;> rfl

theorem claim_c10_witness :
    from_main? emptyWorld ([] : List String) = none ∧
    (["py", "script.py"] ≠ ([] : List String) ∧
      ∃ r, from_main? emptyWorld ["py", "script.py"] = some r) :=
  ⟨(claim_c10 emptyWorld).1,
   by decide,
   (claim_c10 emptyWorld).2 ["py", "script.py"] (by decide)⟩
